import Mathlib

/-!
Verification of the stale-issue detection and batch-commenting workflow of
`mcp_jira_server.py` (class `MCPJiraServer`).

The Python source is shallowly embedded: naive `datetime` instants become
integers counting microseconds since the Unix epoch, the JIRA client becomes
explicit oracles (search results, per-key fetch results, per-key comment-post
success), and each workflow becomes a pure Lean function over those oracles.
String processing of comment timestamps (`split('T')`, slicing,
`replace('Z', '+00:00')`, `datetime.fromisoformat`, `tzinfo` stripping) is
reimplemented over `List Char`, faithful to the Python semantics on the
ISO-8601 grammar the code encounters.
-/

deriving instance DecidableEq for Except

namespace McpJira

/-! ## Data model (§3 of the code's docstring; JIRA entities as consumed) -/

/-- A JIRA assignee as consumed by the workflows: `name` models the
`assignee.name` attribute when present (`hasattr(assignee, 'name')`). -/
structure Assignee where
  name : Option String
  displayName : String
deriving DecidableEq

/-- A JIRA comment as consumed: only `created` (ISO-8601 string) and ordering
matter to the staleness logic. -/
structure Comment where
  author : String
  created : String
  body : String
deriving DecidableEq

/-- A JIRA issue as consumed by the stale workflows. -/
structure Issue where
  key : String
  summary : String
  status : String
  assignee : Option Assignee
deriving DecidableEq

/-! ## Timestamp pipeline

Embeds lines 527-536 of `find_stale_issues` (and the identical logic at lines
672-680 of `comment_on_stale_issues`):

```
comment_date_str = latest_comment.created
if 'T' in comment_date_str:
    comment_date_str = comment_date_str.split('T')[0] + 'T' + comment_date_str.split('T')[1][:19]
latest = datetime.fromisoformat(comment_date_str.replace('Z', '+00:00'))
if latest.tzinfo:
    latest = latest.replace(tzinfo=None)
```
-/

/-- Python `s.split('T')[0] + 'T' + s.split('T')[1][:19]` guarded by
`'T' in s`: the part before the first `'T'`, then `'T'`, then the first 19
characters of the part between the first and second `'T'`.  Characters after a
second `'T'` are dropped by the indexing, exactly as in Python. -/
def truncatePy (l : List Char) : List Char :=
  if l.contains 'T' then
    let p0 := l.takeWhile (fun c => c ≠ 'T')
    let p1 := ((l.dropWhile (fun c => c ≠ 'T')).drop 1).takeWhile (fun c => c ≠ 'T')
    p0 ++ 'T' :: p1.take 19
  else l

/-- Python `s.replace('Z', '+00:00')`: every `'Z'` becomes `+00:00`. -/
def replaceZ : List Char → List Char
  | [] => []
  | c :: rest =>
      if c = 'Z' then '+' :: '0' :: '0' :: ':' :: '0' :: '0' :: replaceZ rest
      else c :: replaceZ rest

/-- Numeric value of an ASCII digit, `none` otherwise. -/
def digit? (c : Char) : Option Nat :=
  if c.isDigit then some (c.toNat - 48) else none

/-- Read exactly two ASCII digits. -/
def read2 : List Char → Option (Nat × List Char)
  | a :: b :: rest => do
      let x ← digit? a
      let y ← digit? b
      pure (10 * x + y, rest)
  | _ => none

/-- Read exactly four ASCII digits. -/
def read4 : List Char → Option (Nat × List Char)
  | a :: b :: c :: d :: rest => do
      let x ← digit? a
      let y ← digit? b
      let z ← digit? c
      let w ← digit? d
      pure (1000 * x + 100 * y + 10 * z + w, rest)
  | _ => none

/-- Expect a specific character. -/
def expectChar (c : Char) : List Char → Option (List Char)
  | a :: rest => if a = c then some rest else none
  | [] => none

/-- Gregorian leap year, as Python's `calendar`/`datetime` use. -/
def isLeap (y : Nat) : Bool :=
  y % 4 = 0 ∧ (y % 100 ≠ 0 ∨ y % 400 = 0)

/-- Days in a Gregorian month. -/
def daysInMonth (y m : Nat) : Nat :=
  if m = 2 then (if isLeap y then 29 else 28)
  else if m = 4 ∨ m = 6 ∨ m = 9 ∨ m = 11 then 30
  else 31

/-- Days from 1970-01-01 to year/month/day (proleptic Gregorian), for
`1 ≤ y`: the standard era decomposition over 400-year cycles. -/
def civilDays (y m d : Nat) : Int :=
  let yy : Nat := if m ≤ 2 then y - 1 else y
  let era := yy / 400
  let yoe := yy % 400
  let mp := if 2 < m then m - 3 else m + 9
  let doy := (153 * mp + 2) / 5 + (d - 1)
  let doe := yoe * 365 + yoe / 4 - yoe / 100 + doy
  (era * 146097 + doe : Int) - 719468

/-- Microseconds per day. -/
def usPerDay : Int := 86400000000

/-- Naive `datetime(y, mo, d, hh, mi, ss, us)` as microseconds since the
Unix epoch.  Python compares naive datetimes field-lexicographically, which
agrees with integer order on this encoding. -/
def mkInstant (y mo d hh mi ss us : Nat) : Int :=
  civilDays y mo d * usPerDay + ((hh * 3600 + mi * 60 + ss) * 1000000 + us : Nat)

/-- Fractional seconds: 1 to 6 digits after the decimal point, scaled to
microseconds. -/
def readFrac (l : List Char) : Option (Nat × List Char) :=
  let digits := l.takeWhile Char.isDigit
  let rest := l.dropWhile Char.isDigit
  if digits.length = 0 ∨ 6 < digits.length then none
  else
    let v := digits.foldl (fun acc c => 10 * acc + (c.toNat - 48)) 0
    some (v * 10 ^ (6 - digits.length), rest)

/-- UTC offset `±HH` or `±HH:MM`: validated syntactically, then discarded,
because the code strips `tzinfo` right after parsing (`replace(tzinfo=None)`),
keeping the wall-clock fields. -/
def parseOffset (l : List Char) : Option Unit := do
  match l with
  | s :: rest =>
      if s = '+' ∨ s = '-' then do
        let (hh, rest) ← read2 rest
        if 23 < hh then none
        else match rest with
          | [] => pure ()
          | _ => do
              let rest ← expectChar ':' rest
              let (mm, rest) ← read2 rest
              if 59 < mm ∨ ¬rest.isEmpty then none else pure ()
      else none
  | [] => none

/-- The time-of-day part `HH[:MM[:SS[.ffffff]]][±HH[:MM]]`, returning the
naive microsecond-of-day. -/
def parseTimePart (l : List Char) : Option Nat := do
  let (hh, l) ← read2 l
  if 23 < hh then none else
  match l with
  | [] => pure (hh * 3600000000)
  | _ =>
    if l.head? = some ':' then do
      let l ← expectChar ':' l
      let (mi, l) ← read2 l
      if 59 < mi then none else
      match l with
      | [] => pure ((hh * 3600 + mi * 60) * 1000000)
      | _ =>
        if l.head? = some ':' then do
          let l ← expectChar ':' l
          let (ss, l) ← read2 l
          if 59 < ss then none else
          match l with
          | [] => pure ((hh * 3600 + mi * 60 + ss) * 1000000)
          | '.' :: l => do
              let (us, l) ← readFrac l
              if l.isEmpty then pure ((hh * 3600 + mi * 60 + ss) * 1000000 + us)
              else do
                let _ ← parseOffset l
                pure ((hh * 3600 + mi * 60 + ss) * 1000000 + us)
          | _ => do
              let _ ← parseOffset l
              pure ((hh * 3600 + mi * 60 + ss) * 1000000)
        else do
          let _ ← parseOffset l
          pure ((hh * 3600 + mi * 60) * 1000000)
    else do
      let _ ← parseOffset l
      pure (hh * 3600000000)

/-- `datetime.fromisoformat` followed by `replace(tzinfo=None)`, modelled on
the common ISO-8601 grammar `YYYY-MM-DD[{T, space}HH[:MM[:SS[.f{1-6}]]][±HH[:MM]]]`:
the result is the naive wall-clock instant (the offset is validated but
discarded, exactly as `replace(tzinfo=None)` does).  Strings outside this
grammar yield `none`, which the callers treat as Python's `ValueError`. -/
def fromIso (l : List Char) : Option Int := do
  let (y, l) ← read4 l
  let l ← expectChar '-' l
  let (mo, l) ← read2 l
  let l ← expectChar '-' l
  let (d, l) ← read2 l
  if y = 0 ∨ mo = 0 ∨ 12 < mo ∨ d = 0 ∨ daysInMonth y mo < d then none
  else match l with
  | [] => pure (mkInstant y mo d 0 0 0 0)
  | sep :: rest =>
      if sep = 'T' ∨ sep = ' ' then do
        let usOfDay ← parseTimePart rest
        pure (civilDays y mo d * usPerDay + (usOfDay : Int))
      else none

/-- The full comment-timestamp pipeline applied to `latest_comment.created`:
truncate as the code does, replace `'Z'`, parse, strip `tzinfo`.  `none`
models the `ValueError` path. -/
def parseCommentDate (s : String) : Option Int :=
  fromIso (replaceZ (truncatePy s.data))

/-! ## Staleness classifier of `find_stale_issues` (lines 510-550) -/

/-- The `latest_comment_date` value carried by `find_stale_issues`: initially
`None`, the string `"No comments"`, a parsed datetime, or (on `ValueError`)
the truncated raw string. -/
inductive LatestDate where
  | none
  | noComments
  | parsed (t : Int)
  | unparsed (s : String)
deriving DecidableEq

/-- Per-issue classification of `find_stale_issues` (lines 515-543):
`threshold_date = datetime.now() - timedelta(days=days_threshold)`; an empty
comment list is stale iff `include_no_comments`; otherwise the last comment's
timestamp is run through the pipeline, a successful parse compares strictly
(`<`) against the threshold, and a `ValueError` is treated as stale with the
truncated string recorded. -/
def classifyIssue (now daysThreshold : Int) (includeNoComments : Bool)
    (comments : List Comment) : Bool × LatestDate :=
  let threshold := now - daysThreshold * usPerDay
  match comments.getLast? with
  | Option.none =>
      if includeNoComments then (true, LatestDate.noComments)
      else (false, LatestDate.none)
  | Option.some c =>
      let truncated := truncatePy c.created.data
      match fromIso (replaceZ truncated) with
      | Option.some t => (decide (t < threshold), LatestDate.parsed t)
      | Option.none => (true, LatestDate.unparsed (String.mk truncated))

/-- One entry of the `stale_issues` list built at lines 545-550. -/
structure StaleItem where
  key : String
  latest : LatestDate
  commentsCount : Nat
deriving DecidableEq

/-- The `stale_issues` list of `find_stale_issues` (lines 510-554): each
searched issue paired with its comments is classified, and exactly the stale
ones are collected with their latest-comment date and comment count. -/
def findStaleIssues (now daysThreshold : Int) (includeNoComments : Bool)
    (results : List (Issue × List Comment)) : List StaleItem :=
  results.filterMap fun ic =>
    let verdict := classifyIssue now daysThreshold includeNoComments ic.2
    if verdict.1 then Option.some ⟨ic.1.key, verdict.2, ic.2.length⟩
    else Option.none

/-! ## Staleness check of `comment_on_stale_issues` (lines 663-692)

Same timestamp pipeline, but an empty comment list is unconditionally stale:
this workflow has no `include_no_comments` parameter. -/

/-- Lines 666-685: `is_stale` for one issue's comments in
`comment_on_stale_issues`. -/
def isStaleForCommenting (now daysThreshold : Int) (comments : List Comment) : Bool :=
  let threshold := now - daysThreshold * usPerDay
  match comments.getLast? with
  | Option.none => true
  | Option.some c =>
      match fromIso (replaceZ (truncatePy c.created.data)) with
      | Option.some t => decide (t < threshold)
      | Option.none => true

/-- Lines 663-692: the `issues_to_process` list built from the search results
in the `all_stale` branch. -/
def collectAllStale (now daysThreshold : Int)
    (results : List (Issue × List Comment)) : List Issue :=
  results.filterMap fun ic =>
    if isStaleForCommenting now daysThreshold ic.2 then Option.some ic.1
    else Option.none

/-! ## Candidate collection for explicit issue keys (lines 613-628) -/

/-- Outcome of the explicit-key collection loop: the issues to process (in
key order), the keys noted "Skipping ...: No assignee", and the keys whose
fetch raised `JIRAError`.  Note that the loop at lines 620-628 appends a
skip note to the output text but does not touch any counter. -/
structure SpecificCollection where
  toProcess : List Issue
  skippedNoAssignee : List String
  fetchFailed : List String
deriving DecidableEq

/-- Lines 620-628: fetch each key; issues with an assignee are queued, issues
without one get a skip note, and a `JIRAError` on one key is recorded and the
loop continues with the next key. -/
def collectSpecific (fetch : String → Except String Issue) :
    List String → SpecificCollection
  | [] => ⟨[], [], []⟩
  | k :: ks =>
      let rest := collectSpecific fetch ks
      match fetch k with
      | Except.ok iss =>
          if iss.assignee.isSome then
            ⟨iss :: rest.toProcess, rest.skippedNoAssignee, rest.fetchFailed⟩
          else
            ⟨rest.toProcess, k :: rest.skippedNoAssignee, rest.fetchFailed⟩
      | Except.error _ =>
          ⟨rest.toProcess, rest.skippedNoAssignee, k :: rest.fetchFailed⟩

/-! ## The processing loop (lines 714-777) -/

/-- Outcome of one iteration of the per-candidate loop. -/
inductive Outcome where
  | skippedNoAssignee
  | posted
  | postFailed
  | wouldPost
deriving DecidableEq

/-- A mutating `add_comment` invocation sent to the JIRA client. -/
structure MutCall where
  issueKey : String
  text : String
deriving DecidableEq

/-- Line 746: `f"[~{assignee.name}]" if hasattr(assignee, 'name') else
f"@{assignee.displayName}"`. -/
def mentionOf (a : Assignee) : String :=
  match a.name with
  | Option.some n => "[~" ++ n ++ "]"
  | Option.none => "@" ++ a.displayName

/-- Replaces every occurrence of the `{assignee}` placeholder, consuming one
unit of fuel per step; with fuel = input length this is total. -/
def formatAssigneeAux (mention : List Char) : Nat → List Char → List Char
  | 0, l => l
  | _, [] => []
  | fuel + 1, c :: rest =>
      if c = '\x7b' ∧ rest.take 9 = "assignee\x7d".data then
        mention ++ formatAssigneeAux mention fuel (rest.drop 9)
      else c :: formatAssigneeAux mention fuel rest

/-- Line 747: `comment_template.format(assignee=assignee_mention)`, for
templates whose only replacement field is `{assignee}`: every occurrence of
the placeholder becomes the mention. -/
def formatTemplate (template mention : String) : String :=
  String.mk (formatAssigneeAux mention.data template.data.length template.data)

/-- Lines 714-777, one candidate: no assignee increments `skipped_count` and
continues; otherwise the template's `{assignee}` placeholder is filled with
the mention and, only when `mode == "live"`, the mutating `add_comment` call
is issued (counted `posted` on success, `failed` on `JIRAError`); any other
mode reports "Would post comment (dry run mode)".  The second component lists
the mutating calls this iteration performed. -/
def processIssue (mode : String) (postOk : String → Bool) (template : String)
    (iss : Issue) : Outcome × List MutCall :=
  match iss.assignee with
  | Option.none => (Outcome.skippedNoAssignee, [])
  | Option.some a =>
      let text := formatTemplate template (mentionOf a)
      if mode = "live" then
        if postOk iss.key then (Outcome.posted, [⟨iss.key, text⟩])
        else (Outcome.postFailed, [⟨iss.key, text⟩])
      else (Outcome.wouldPost, [])

/-- The structured content of the summary block (lines 779-794) plus the
per-candidate line items and the mutating calls performed. -/
structure Report where
  processed : Nat
  commented : Nat
  failed : Nat
  skipped : Nat
  outcomes : List (String × Outcome)
  mutCalls : List MutCall
  skippedNoAssigneeKeys : List String
  fetchFailedKeys : List String
deriving DecidableEq

/-- The loop over `issues_to_process` plus the counter updates
(lines 710-777): `commented_count`, `failed_count` and `skipped_count` each
count exactly the iterations that took the corresponding branch, and
`processed` is `len(issues_to_process)` (line 782). -/
def mkReport (mode : String) (postOk : String → Bool) (template : String)
    (issues : List Issue) (skipNotes fetchFails : List String) : Report :=
  let steps := issues.map fun iss => (iss.key, processIssue mode postOk template iss)
  let outs := steps.map fun s => (s.1, s.2.1)
  { processed := issues.length
    commented := outs.countP fun o => o.2 = Outcome.posted
    failed := outs.countP fun o => o.2 = Outcome.postFailed
    skipped := outs.countP fun o => o.2 = Outcome.skippedNoAssignee
    outcomes := outs
    mutCalls := (steps.map fun s => s.2.2).flatten
    skippedNoAssigneeKeys := skipNotes
    fetchFailedKeys := fetchFails }

/-- `comment_on_stale_issues` (lines 597-801).  Oracles: `fetch` models
`jira_client.issue`, `search` models `jira_client.search_issues` paired with
per-issue `jira_client.comments`, `postOk` models whether
`jira_client.add_comment` succeeds for a key.  `Except.error` models the
early text-only returns (lines 615-616, 632-633, 657-658, 701-702); the full
result-text rendering is not modelled, only the structured facts it reports.
The `target_scope == "specific_issues"` comparison and the `if not
project_key` truthiness test follow the code. -/
def commentOnStaleIssues (now : Int) (fetch : String → Except String Issue)
    (search : List (Issue × List Comment)) (projectKey : Option String)
    (daysThreshold : Int) (mode targetScope template : String)
    (specificIssues : List String) (postOk : String → Bool) :
    Except String Report :=
  if targetScope = "specific_issues" then
    if specificIssues.isEmpty then Except.error "no_specific_issues_provided"
    else
      let col := collectSpecific fetch specificIssues
      if col.toProcess.isEmpty then Except.error "no_stale_issues_to_comment_on"
      else Except.ok (mkReport mode postOk template col.toProcess
        col.skippedNoAssignee col.fetchFailed)
  else
    if projectKey.getD "" = "" then Except.error "project_key_required"
    else if search.isEmpty then Except.error "no_active_issues_found"
    else
      let cands := collectAllStale now daysThreshold search
      if cands.isEmpty then Except.error "no_stale_issues_to_comment_on"
      else Except.ok (mkReport mode postOk template cands [] [])

/-! ## JQL construction (lines 482-501 and 635-655)

The code builds `jql_parts` as f-strings.  The affected-version clause is
embedded in two stages: a structured clause carrying the version values the
clause tests membership against, and a renderer producing exactly the code's
strings; their composition is the code's behavior. -/

/-- The affected-version JQL clause, structurally: `affectedVersion = "v"`
for a single version, `affectedVersion in ("v1", "v2", ...)` for several. -/
inductive VersionClause where
  | eq (v : String)
  | inList (vs : List String)
deriving DecidableEq

/-- Lines 492-497 (identically 647-652): `if affects_versions:` (absent or
empty list produces no clause); a one-element list produces the equality
form with `affects_versions[0]`, a longer list the `in` form. -/
def affectsVersionClause : List String → Option VersionClause
  | [] => Option.none
  | [v] => Option.some (VersionClause.eq v)
  | vs => Option.some (VersionClause.inList vs)

/-- The version values a clause tests `affectedVersion` membership against:
the equality form tests the singleton, the `in` form tests its list. -/
def membershipValues : VersionClause → List String
  | VersionClause.eq v => [v]
  | VersionClause.inList vs => vs

/-- Renders the clause to the exact f-string of lines 494 and 496-497:
`affectedVersion = "v"`, or `affectedVersion in (...)` with each version
quoted and joined by `", "`. -/
def renderVersionClause : VersionClause → String
  | VersionClause.eq v => "affectedVersion = \"" ++ v ++ "\""
  | VersionClause.inList vs =>
      "affectedVersion in (" ++ ", ".intercalate (vs.map fun v => "\"" ++ v ++ "\"") ++ ")"

/-- Modelled from the spec: §4.2's affected-version rule, "each
caller-supplied version string is expanded into two candidate values: the
literal version and a `<version>.z` stream variant; both are added to the
membership set".  Defined only for comparison with the source's
`affectsVersionClause`; no such expansion exists in `src/`. -/
def specExpandedVersions (vs : List String) : List String :=
  (vs.map fun v => [v, v ++ ".z"]).flatten

/-- Lines 483-497: the `jql_parts` list of `find_stale_issues`.
`if status_filter:` is Python truthiness (absent or empty string adds no
clause), and the affected-version clause is appended when present. -/
def findStaleJqlParts (projectKey : String) (statusFilter : Option String)
    (affectsVersions : List String) : List String :=
  ["project = \"" ++ projectKey ++ "\"", "assignee is not EMPTY"]
    ++ (match statusFilter with
        | Option.some s => if s = "" then [] else ["status = \"" ++ s ++ "\""]
        | Option.none => [])
    ++ (match affectsVersionClause affectsVersions with
        | Option.some cl => [renderVersionClause cl]
        | Option.none => [])

/-- Lines 636-652: the `jql_parts` list of `comment_on_stale_issues`:
project scope, assignee non-empty, a parenthesized conjunction of
`status != "..."` exclusions when `exclude_statuses` is nonempty, then the
affected-version clause. -/
def commentOnStaleJqlParts (projectKey : String) (excludeStatuses : List String)
    (affectsVersions : List String) : List String :=
  ["project = \"" ++ projectKey ++ "\"", "assignee is not EMPTY"]
    ++ (if excludeStatuses.isEmpty then []
        else ["(" ++ " AND ".intercalate
          (excludeStatuses.map fun st => "status != \"" ++ st ++ "\"") ++ ")"])
    ++ (match affectsVersionClause affectsVersions with
        | Option.some cl => [renderVersionClause cl]
        | Option.none => [])

/-- A search request sent to `jira_client.search_issues`. -/
structure SearchCall where
  jql : String
  maxResults : Nat
deriving DecidableEq

/-- Line 500-501: `base_jql = " AND ".join(jql_parts)` then
`search_issues(base_jql, maxResults=1000, expand='changelog')`. -/
def findStaleSearchCall (projectKey : String) (statusFilter : Option String)
    (affectsVersions : List String) : SearchCall :=
  { jql := " AND ".intercalate (findStaleJqlParts projectKey statusFilter affectsVersions)
    maxResults := 1000 }

/-- Lines 654-655: `base_jql = " AND ".join(jql_parts)` then
`search_issues(base_jql, maxResults=1000)`. -/
def commentOnStaleSearchCall (projectKey : String) (excludeStatuses : List String)
    (affectsVersions : List String) : SearchCall :=
  { jql := " AND ".intercalate (commentOnStaleJqlParts projectKey excludeStatuses affectsVersions)
    maxResults := 1000 }

/-! ## Rate limiter

Modelled from the spec: no rate limiter exists anywhere under `src/`
(`mcp_jira_server.py` issues its JIRA calls directly); the definitions below
follow §4.1 of the specification word for word. -/

/-- Modelled from the spec: §4.1's constants `base_delay` (default 1.0s),
`burst_limit` (default 10), `burst_window` (default 60s). -/
structure RateLimiterConfig where
  baseDelay : ℚ
  burstLimit : ℕ
  burstWindow : ℚ
deriving DecidableEq

/-- Modelled from the spec: §4.1's state `last_call_time`, `burst_count`. -/
structure RateLimiterState where
  lastCallTime : ℚ
  burstCount : ℕ
deriving DecidableEq

/-- Modelled from the spec: §4.1's `acquire()` algorithm, steps 1-5.
`now` is the clock at entry; the returned delay is how long the caller
suspends, and per step 5 `last_call_time` is updated to the clock after the
suspension (`now + delay`) while `burst_count` is incremented after the
delay has been computed. -/
def acquire (cfg : RateLimiterConfig) (st : RateLimiterState) (now : ℚ) :
    ℚ × RateLimiterState :=
  let elapsed := now - st.lastCallTime
  let bc := if cfg.burstWindow < elapsed then 0 else st.burstCount
  let delay :=
    if cfg.burstLimit ≤ bc then
      min (cfg.baseDelay * 2 ^ (min (bc - cfg.burstLimit) 2)) 8
    else max (cfg.baseDelay - elapsed) 0
  (delay, { lastCallTime := now + delay, burstCount := bc + 1 })

/-- Modelled from the spec: the defaults of §4.1. -/
def stdRateLimiter : RateLimiterConfig :=
  { baseDelay := 1, burstLimit := 10, burstWindow := 60 }

/-- Modelled from the spec: `n` rapid calls, each issued the instant the
previous one returns (entry clock = the state's `last_call_time`), starting
from `last_call_time = 0`, `burst_count = 0`.  Returns the final state and
the list of delays each call slept, in call order. -/
def rapidCalls (cfg : RateLimiterConfig) : ℕ → RateLimiterState × List ℚ
  | 0 => (⟨0, 0⟩, [])
  | n + 1 =>
      let (st, ds) := rapidCalls cfg n
      let (d, st') := acquire cfg st st.lastCallTime
      (st', ds ++ [d])

/-! ## Concrete sample data (used by witnesses and counterexamples) -/

/-- Sample assignee with a `name` attribute. -/
def annAssignee : Assignee := ⟨Option.some "ann", "Ann"⟩

/-- Sample issue with assignee. -/
def issA : Issue := ⟨"A", "summary a", "Open", Option.some annAssignee⟩

/-- Second sample issue with assignee. -/
def issB : Issue := ⟨"B", "summary b", "Open", Option.some ⟨Option.some "bob", "Bob"⟩⟩

/-- Sample issue without assignee. -/
def issC : Issue := ⟨"C", "summary c", "Open", Option.none⟩

/-- Sample fetch oracle: `A`, `B`, `C` resolve, everything else raises. -/
def sampleFetch : String → Except String Issue := fun k =>
  if k = "A" then Except.ok issA
  else if k = "B" then Except.ok issB
  else if k = "C" then Except.ok issC
  else Except.error "does not exist"

/-- A comment from 2020, long stale against a 2024 clock. -/
def oldComment : Comment := ⟨"ann", "2020-01-01T00:00:00", "ping"⟩

/-- A comment whose `created` string cannot be parsed. -/
def badDateComment : Comment := ⟨"ann", "not a date", "ping"⟩

/-- Sample clock: 2024-01-15 12:34:56.000001. -/
def sampleNow : Int := mkInstant 2024 1 15 12 34 56 1

/-! ## Helper lemmas -/

/-- Any `Except.ok` result of `comment_on_stale_issues` is the report of the
processing loop over some candidate list. -/
theorem commentOnStale_ok_eq (now : Int) (fetch : String → Except String Issue)
    (search : List (Issue × List Comment)) (projectKey : Option String)
    (daysThreshold : Int) (mode targetScope template : String)
    (specificIssues : List String) (postOk : String → Bool) (r : Report)
    (h : commentOnStaleIssues now fetch search projectKey daysThreshold mode
      targetScope template specificIssues postOk = Except.ok r) :
    ∃ issues skips fails, r = mkReport mode postOk template issues skips fails := by
  unfold commentOnStaleIssues at h
  split at h
  · split at h
    · exact absurd h (by simp)
    · dsimp only at h
      split at h
      · exact absurd h (by simp)
      · exact ⟨_, _, _, (Except.ok.inj h).symm⟩
  · split at h
    · exact absurd h (by simp)
    · split at h
      · exact absurd h (by simp)
      · dsimp only at h
        split at h
        · exact absurd h (by simp)
        · exact ⟨_, _, _, (Except.ok.inj h).symm⟩

/-- In any mode other than `"live"`, one loop iteration performs no mutating
call, and its outcome is a skip (no assignee) or "would post". -/
theorem processIssue_not_live (mode : String) (hm : mode ≠ "live")
    (postOk : String → Bool) (template : String) (iss : Issue) :
    (processIssue mode postOk template iss).2 = [] ∧
    ((processIssue mode postOk template iss).1 = Outcome.skippedNoAssignee ∨
      (processIssue mode postOk template iss).1 = Outcome.wouldPost) := by
  unfold processIssue
  cases iss.assignee with
  | none => simp
  | some a => simp [hm]

/-- An issue with an assignee is never the `skippedNoAssignee` outcome. -/
theorem processIssue_with_assignee (mode : String) (postOk : String → Bool)
    (template : String) (iss : Issue) (ha : iss.assignee.isSome = true) :
    (processIssue mode postOk template iss).1 ≠ Outcome.skippedNoAssignee := by
  obtain ⟨a, ha2⟩ := Option.isSome_iff_exists.mp ha
  unfold processIssue
  rw [ha2]
  by_cases hm : mode = "live"
  · by_cases hp : postOk iss.key = true <;> simp [hm, hp]
  · simp [hm]

/-- The three summary counters count disjoint outcome kinds, so their sum is
bounded by the number of processed candidates. -/
theorem countP_outcomes_le (outs : List (String × Outcome)) :
    (outs.countP fun o => o.2 = Outcome.posted) +
      (outs.countP fun o => o.2 = Outcome.postFailed) +
      (outs.countP fun o => o.2 = Outcome.skippedNoAssignee) ≤ outs.length := by
  induction outs with
  | nil => simp
  | cons a l ih =>
      cases ha : a.2 <;> simp [List.countP_cons, ha] <;> omega

/-- Structure of the report built by the processing loop. -/
theorem mkReport_fields (mode : String) (postOk : String → Bool)
    (template : String) (issues : List Issue) (skips fails : List String) :
    (mkReport mode postOk template issues skips fails).processed = issues.length ∧
    (mkReport mode postOk template issues skips fails).outcomes.length = issues.length ∧
    (mkReport mode postOk template issues skips fails).skippedNoAssigneeKeys = skips ∧
    (mkReport mode postOk template issues skips fails).fetchFailedKeys = fails := by
  unfold mkReport
  simp

/-! ## Claim theorems -/

/-- C1: in `comment_on_stale_issues` with `mode = "dry_run"`, the mutating
add-comment call is invoked zero times, for every candidate set and every
candidate count (any tracker oracles and targeting): the report's list of
mutating calls is empty, every per-candidate outcome is either a no-assignee
skip or "Would post comment (dry run mode)", and every candidate holding an
assignee is reported as "would post". -/
theorem dryRun_never_posts (now : Int) (fetch : String → Except String Issue)
    (search : List (Issue × List Comment)) (projectKey : Option String)
    (daysThreshold : Int) (targetScope template : String)
    (specificIssues : List String) (postOk : String → Bool) (r : Report)
    (h : commentOnStaleIssues now fetch search projectKey daysThreshold
      "dry_run" targetScope template specificIssues postOk = Except.ok r) :
    r.mutCalls = [] ∧
    (∀ p ∈ r.outcomes, p.2 = Outcome.skippedNoAssignee ∨ p.2 = Outcome.wouldPost) ∧
    ∀ iss : Issue, iss.assignee.isSome →
      (processIssue "dry_run" postOk template iss).1 = Outcome.wouldPost := by
  obtain ⟨issues, skips, fails, hr⟩ := commentOnStale_ok_eq now fetch search
    projectKey daysThreshold "dry_run" targetScope template specificIssues postOk r h
  subst hr
  refine ⟨?_, ?_, ?_⟩
  · unfold mkReport
    simp only
    rw [List.flatten_eq_nil_iff]
    intro x hx
    rw [List.mem_map] at hx
    obtain ⟨s, hs, rfl⟩ := hx
    rw [List.mem_map] at hs
    obtain ⟨iss, _, rfl⟩ := hs
    exact (processIssue_not_live "dry_run" (by decide) postOk template iss).1
  · intro p hp
    unfold mkReport at hp
    simp only at hp
    rw [List.mem_map] at hp
    obtain ⟨s, hs, rfl⟩ := hp
    rw [List.mem_map] at hs
    obtain ⟨iss, _, rfl⟩ := hs
    exact (processIssue_not_live "dry_run" (by decide) postOk template iss).2
  · intro iss ha
    obtain ⟨a, ha2⟩ := Option.isSome_iff_exists.mp ha
    unfold processIssue
    rw [ha2]
    simp

/-- C1 witness: a concrete dry-run over two explicit keys, one fetch failing,
yields a report whose mutating-call list is empty. -/
theorem dryRun_never_posts_witness :
    commentOnStaleIssues 0 sampleFetch [] Option.none 14 "dry_run"
      "specific_issues" "{assignee} ping" ["A", "Z"] (fun _ => true)
      = Except.ok ⟨1, 0, 0, 0, [("A", Outcome.wouldPost)], [], [], ["Z"]⟩ ∧
    (⟨1, 0, 0, 0, [("A", Outcome.wouldPost)], [], [], ["Z"]⟩ : Report).mutCalls = [] := by
  refine ⟨by decide, ?_⟩
  exact (dryRun_never_posts 0 sampleFetch [] Option.none 14
    "specific_issues" "{assignee} ping" ["A", "Z"] (fun _ => true)
    ⟨1, 0, 0, 0, [("A", Outcome.wouldPost)], [], [], ["Z"]⟩ (by decide)).1

/-- C8: every report of the batch comment workflow satisfies
`commented + failed + skipped ≤ processed`, and when `mode = "dry_run"` the
posted (commented) count is 0. -/
theorem report_counts_invariant (now : Int) (fetch : String → Except String Issue)
    (search : List (Issue × List Comment)) (projectKey : Option String)
    (daysThreshold : Int) (mode targetScope template : String)
    (specificIssues : List String) (postOk : String → Bool) (r : Report)
    (h : commentOnStaleIssues now fetch search projectKey daysThreshold mode
      targetScope template specificIssues postOk = Except.ok r) :
    r.commented + r.failed + r.skipped ≤ r.processed ∧
    (mode = "dry_run" → r.commented = 0) := by
  obtain ⟨issues, skips, fails, hr⟩ := commentOnStale_ok_eq now fetch search
    projectKey daysThreshold mode targetScope template specificIssues postOk r h
  subst hr
  constructor
  · unfold mkReport
    simp only
    have hle := countP_outcomes_le
      ((issues.map fun iss => (iss.key, processIssue mode postOk template iss)).map
        fun s => (s.1, s.2.1))
    simpa using hle
  · intro hmode
    subst hmode
    unfold mkReport
    simp only
    rw [List.countP_eq_zero]
    intro o ho
    rw [List.mem_map] at ho
    obtain ⟨s, hs, rfl⟩ := ho
    rw [List.mem_map] at hs
    obtain ⟨iss, _, rfl⟩ := hs
    rcases (processIssue_not_live "dry_run" (by decide) postOk template iss).2 with
      h1 | h1 <;> simp [h1]

/-- C8 witness: a concrete live-mode run over explicit keys `A` (post
succeeds) and `B` (post fails) satisfies the count invariant, and a concrete
dry-run has posted = 0. -/
theorem report_counts_invariant_witness :
    commentOnStaleIssues 0 sampleFetch [] Option.none 14 "live"
      "specific_issues" "{assignee} ping" ["A", "B"] (fun k => k = "A")
      = Except.ok ⟨2, 1, 1, 0, [("A", Outcome.posted), ("B", Outcome.postFailed)],
          [⟨"A", "[~ann] ping"⟩, ⟨"B", "[~bob] ping"⟩], [], []⟩ ∧
    (1 : Nat) + 1 + 0 ≤ 2 ∧
    commentOnStaleIssues 0 sampleFetch [] Option.none 14 "dry_run"
      "specific_issues" "{assignee} ping" ["B"] (fun _ => true)
      = Except.ok ⟨1, 0, 0, 0, [("B", Outcome.wouldPost)], [], [], []⟩ ∧
    (0 : Nat) = 0 := by
  have hlive := report_counts_invariant 0 sampleFetch [] Option.none 14 "live"
    "specific_issues" "{assignee} ping" ["A", "B"] (fun k => k = "A")
    ⟨2, 1, 1, 0, [("A", Outcome.posted), ("B", Outcome.postFailed)],
      [⟨"A", "[~ann] ping"⟩, ⟨"B", "[~bob] ping"⟩], [], []⟩ (by decide)
  have hdry := report_counts_invariant 0 sampleFetch [] Option.none 14 "dry_run"
    "specific_issues" "{assignee} ping" ["B"] (fun _ => true)
    ⟨1, 0, 0, 0, [("B", Outcome.wouldPost)], [], [], []⟩ (by decide)
  exact ⟨by decide, hlive.1, by decide, hdry.2 rfl⟩

/-- C2 counterexample: with `threshold_days = 0` and the clock at 2024-01-15
12:34:56.000001, a latest comment created one microsecond earlier —
12:34:56.000000, within the same second — is classified STALE, refuting the
claim that truncation to whole-second precision makes it not-stale.  The
slicing at line 530 keeps the first 19 characters of the time-of-day
substring, which include the fractional seconds: the timestamp parses with
its microseconds intact, as the second conjunct shows. -/
theorem microsecond_earlier_is_stale :
    (classifyIssue sampleNow 0 true
      [⟨"ann", "2024-01-15T12:34:56.000000", "hi"⟩]).1 = true ∧
    parseCommentDate "2024-01-15T12:34:56.000000"
      = Option.some (mkInstant 2024 1 15 12 34 56 0) ∧
    sampleNow = mkInstant 2024 1 15 12 34 56 1 := by
  refine ⟨by decide, by decide, by decide⟩

/-- C2 amended: the staleness comparison is strict and at full microsecond
precision: whenever the latest comment's timestamp parses to an instant `t`,
the verdict is stale exactly when `t < now - threshold_days`.  With
threshold 0, a timestamp exactly equal to `now` is therefore not-stale
(`<` not `≤`), but a timestamp one microsecond earlier IS stale: the code's
slicing keeps fractional seconds, so no second-level truncation occurs. -/
theorem staleness_strict_full_precision (now d : Int) (inc : Bool)
    (cs : List Comment) (c : Comment) (t : Int)
    (hlast : cs.getLast? = Option.some c)
    (hparse : parseCommentDate c.created = Option.some t) :
    (classifyIssue now d inc cs).1 = decide (t < now - d * usPerDay) := by
  unfold classifyIssue
  unfold parseCommentDate at hparse
  rw [hlast]
  dsimp only
  rw [hparse]

/-- C2 witness: at threshold 0, a comment stamped exactly at the clock value
is not stale, and one stamped one microsecond earlier is stale. -/
theorem staleness_strict_full_precision_witness :
    (classifyIssue sampleNow 0 true
      [⟨"ann", "2024-01-15T12:34:56.000001", "hi"⟩]).1 = false ∧
    (classifyIssue sampleNow 0 true
      [⟨"ann", "2024-01-15T12:34:56.000000", "hi"⟩]).1 = true := by
  have h1 := staleness_strict_full_precision sampleNow 0 true
    [⟨"ann", "2024-01-15T12:34:56.000001", "hi"⟩]
    ⟨"ann", "2024-01-15T12:34:56.000001", "hi"⟩
    (mkInstant 2024 1 15 12 34 56 1) (by decide) (by decide)
  have h2 := staleness_strict_full_precision sampleNow 0 true
    [⟨"ann", "2024-01-15T12:34:56.000000", "hi"⟩]
    ⟨"ann", "2024-01-15T12:34:56.000000", "hi"⟩
    (mkInstant 2024 1 15 12 34 56 0) (by decide) (by decide)
  rw [h1, h2]
  exact ⟨by decide, by decide⟩

/-- C6: in `find_stale_issues` with `include_no_comments = false`, no issue
with zero comments ever appears in the stale result set, for every clock,
threshold and search-result list. -/
theorem exclude_no_comment_issues (now d : Int)
    (results : List (Issue × List Comment)) :
    ∀ item ∈ findStaleIssues now d false results, item.commentsCount ≠ 0 := by
  intro item hmem
  unfold findStaleIssues at hmem
  rw [List.mem_filterMap] at hmem
  obtain ⟨ic, _, heq⟩ := hmem
  dsimp only at heq
  rcases hc : ic.2 with _ | ⟨c, cs⟩
  · rw [hc] at heq
    simp [classifyIssue] at heq
  · rw [hc] at heq
    by_cases hv : (classifyIssue now d false (c :: cs)).1 = true
    · rw [if_pos hv] at heq
      obtain rfl := Option.some.inj heq
      simp
    · rw [if_neg hv] at heq
      exact absurd heq (by simp)

/-- C6 witness: a concrete search result holding one stale commented issue
and one zero-comment issue: with `include_no_comments = false` only the
commented one is returned, and its comment count is nonzero. -/
theorem exclude_no_comment_issues_witness :
    findStaleIssues sampleNow 14 false [(issA, [oldComment]), (issC, [])]
      = [⟨"A", LatestDate.parsed (mkInstant 2020 1 1 0 0 0 0), 1⟩] ∧
    (⟨"A", LatestDate.parsed (mkInstant 2020 1 1 0 0 0 0), 1⟩ : StaleItem).commentsCount ≠ 0 := by
  refine ⟨by decide, ?_⟩
  exact exclude_no_comment_issues sampleNow 14 [(issA, [oldComment]), (issC, [])]
    ⟨"A", LatestDate.parsed (mkInstant 2020 1 1 0 0 0 0), 1⟩ (by decide)

/-- C7: classification is fail-open on parse failures: whenever the latest
comment's `created` string fails to parse, the issue is classified stale
rather than skipped — `find_stale_issues` returns it with the raw (truncated)
string recorded as its latest date, and `comment_on_stale_issues` keeps it as
a commenting candidate. -/
theorem unparseable_date_fail_open (now d : Int) (inc : Bool)
    (results : List (Issue × List Comment)) (iss : Issue) (cs : List Comment)
    (c : Comment) (hmem : (iss, cs) ∈ results)
    (hlast : cs.getLast? = Option.some c)
    (hparse : parseCommentDate c.created = Option.none) :
    (∃ item ∈ findStaleIssues now d inc results, item.key = iss.key ∧
      item.latest = LatestDate.unparsed (String.mk (truncatePy c.created.data))) ∧
    iss ∈ collectAllStale now d results := by
  have hcl : classifyIssue now d inc cs
      = (true, LatestDate.unparsed (String.mk (truncatePy c.created.data))) := by
    unfold classifyIssue
    unfold parseCommentDate at hparse
    rw [hlast]
    dsimp only
    rw [hparse]
  have hst : isStaleForCommenting now d cs = true := by
    unfold isStaleForCommenting
    unfold parseCommentDate at hparse
    rw [hlast]
    dsimp only
    rw [hparse]
  constructor
  · refine ⟨⟨iss.key, LatestDate.unparsed (String.mk (truncatePy c.created.data)),
      cs.length⟩, ?_, rfl, rfl⟩
    unfold findStaleIssues
    rw [List.mem_filterMap]
    exact ⟨(iss, cs), hmem, by rw [hcl]; rfl⟩
  · unfold collectAllStale
    rw [List.mem_filterMap]
    exact ⟨(iss, cs), hmem, by rw [hst]; rfl⟩

/-- C7 witness: an issue whose only comment is dated `"not a date"` is
classified stale by both workflows. -/
theorem unparseable_date_fail_open_witness :
    (∃ item ∈ findStaleIssues sampleNow 14 true [(issB, [badDateComment])],
      item.key = issB.key ∧
      item.latest = LatestDate.unparsed (String.mk (truncatePy badDateComment.created.data))) ∧
    issB ∈ collectAllStale sampleNow 14 [(issB, [badDateComment])] := by
  exact unparseable_date_fail_open sampleNow 14 true [(issB, [badDateComment])]
    issB [badDateComment] badDateComment (by decide) (by decide) (by decide)

/-- C10: in the `all_stale` workflow every searched issue with zero comments
is unconditionally stale and becomes a commenting candidate: the staleness
check of `comment_on_stale_issues` treats an empty comment list as stale with
no `include_no_comments` option, whereas `find_stale_issues` with
`include_no_comments = false` rejects the same zero-comment issue. -/
theorem zero_comments_always_candidate (now d : Int)
    (results : List (Issue × List Comment)) (iss : Issue)
    (hmem : (iss, ([] : List Comment)) ∈ results) :
    iss ∈ collectAllStale now d results ∧
    isStaleForCommenting now d [] = true ∧
    (classifyIssue now d false []).1 = false := by
  refine ⟨?_, rfl, rfl⟩
  unfold collectAllStale
  rw [List.mem_filterMap]
  exact ⟨(iss, []), hmem, rfl⟩

/-- C10 witness: a concrete zero-comment issue surfaced by the search becomes
a commenting candidate. -/
theorem zero_comments_always_candidate_witness :
    issC ∈ collectAllStale sampleNow 14 [(issA, [oldComment]), (issC, [])] ∧
    isStaleForCommenting sampleNow 14 [] = true := by
  have h := zero_comments_always_candidate sampleNow 14
    [(issA, [oldComment]), (issC, [])] issC (by decide)
  exact ⟨h.1, h.2.1⟩

/-- C3 counterexample: `affects_versions = ["4.18"]` produces the clause
`affectedVersion = "4.18"`, whose membership set is exactly `["4.18"]`: the
stream variant `"4.18.z"` the claim demands is not in it, while the
spec-worded expansion would have produced `["4.18", "4.18.z"]`. -/
theorem version_clause_no_z_variant :
    affectsVersionClause ["4.18"] = Option.some (VersionClause.eq "4.18") ∧
    membershipValues (VersionClause.eq "4.18") = ["4.18"] ∧
    "4.18.z" ∉ membershipValues (VersionClause.eq "4.18") ∧
    renderVersionClause (VersionClause.eq "4.18") = "affectedVersion = \"4.18\"" ∧
    specExpandedVersions ["4.18"] = ["4.18", "4.18.z"] :=
  ⟨rfl, rfl, by decide, rfl, rfl⟩

/-- The rendered affected-version clause is one of the JQL parts of
`find_stale_issues` whenever versions are supplied. -/
theorem render_mem_findStaleJqlParts (pk : String) (sf : Option String)
    (vs : List String) (cl : VersionClause)
    (hcl : affectsVersionClause vs = Option.some cl) :
    renderVersionClause cl ∈ findStaleJqlParts pk sf vs := by
  unfold findStaleJqlParts
  rw [hcl]
  simp

/-- The rendered affected-version clause is one of the JQL parts of
`comment_on_stale_issues` whenever versions are supplied. -/
theorem render_mem_commentOnStaleJqlParts (pk : String) (ex : List String)
    (vs : List String) (cl : VersionClause)
    (hcl : affectsVersionClause vs = Option.some cl) :
    renderVersionClause cl ∈ commentOnStaleJqlParts pk ex vs := by
  unfold commentOnStaleJqlParts
  rw [hcl]
  simp

/-- C3 amended: each caller-supplied version string is used literally and
alone: the affected-version clause built from a nonempty version list `vs`
tests membership against exactly `vs` — no `".z"` stream variant is added —
and its rendering is among the JQL parts of both workflows. -/
theorem affects_versions_literal (vs : List String) (hvs : vs ≠ []) :
    ∃ cl, affectsVersionClause vs = Option.some cl ∧ membershipValues cl = vs ∧
      (∀ pk sf, renderVersionClause cl ∈ findStaleJqlParts pk sf vs) ∧
      (∀ pk ex, renderVersionClause cl ∈ commentOnStaleJqlParts pk ex vs) := by
  match vs with
  | [] => exact absurd rfl hvs
  | [v] =>
      exact ⟨VersionClause.eq v, rfl, rfl,
        fun pk sf => render_mem_findStaleJqlParts pk sf [v] _ rfl,
        fun pk ex => render_mem_commentOnStaleJqlParts pk ex [v] _ rfl⟩
  | v :: w :: rest =>
      exact ⟨VersionClause.inList (v :: w :: rest), rfl, rfl,
        fun pk sf => render_mem_findStaleJqlParts pk sf _ _ rfl,
        fun pk ex => render_mem_commentOnStaleJqlParts pk ex _ _ rfl⟩

/-- C3 witness: the amended statement at the concrete input `["4.18"]`. -/
theorem affects_versions_literal_witness :
    ∃ cl, affectsVersionClause ["4.18"] = Option.some cl ∧
      membershipValues cl = ["4.18"] ∧
      (∀ pk sf, renderVersionClause cl ∈ findStaleJqlParts pk sf ["4.18"]) ∧
      (∀ pk ex, renderVersionClause cl ∈ commentOnStaleJqlParts pk ex ["4.18"]) :=
  affects_versions_literal ["4.18"] (by decide)

/-- C4 counterexample: the search request of `find_stale_issues` for a
concrete argument set carries `maxResults = 1000` — not a value clamped to a
maximum of 25 — and likewise for `comment_on_stale_issues`. -/
theorem max_results_not_clamped :
    (findStaleSearchCall "TEST" Option.none []).maxResults = 1000 ∧
    ¬ (findStaleSearchCall "TEST" Option.none []).maxResults ≤ 25 ∧
    (commentOnStaleSearchCall "TEST"
      ["Closed", "Release Pending", "On_QA", "Verified"] []).maxResults = 1000 ∧
    ¬ (commentOnStaleSearchCall "TEST"
      ["Closed", "Release Pending", "On_QA", "Verified"] []).maxResults ≤ 25 :=
  ⟨rfl, by decide, rfl, by decide⟩

/-- C4 amended: both stale workflows send a fixed `maxResults = 1000` to the
tracker for every argument set; the caller cannot influence it, and no clamp
to 25 exists anywhere in the workflows. -/
theorem max_results_fixed_1000 (pk : String) (sf : Option String)
    (avs ex : List String) :
    (findStaleSearchCall pk sf avs).maxResults = 1000 ∧
    (commentOnStaleSearchCall pk ex avs).maxResults = 1000 :=
  ⟨rfl, rfl⟩

/-- C5 counterexample (spec-modelled: no rate limiter exists under `src/`;
the model follows §4.1 of the specification): with base_delay = 1.0 and
burst_limit = 10, the 11th rapid call sees burst_count = 10, exponent
min(10 − 10, 2) = 0, and sleeps 1.0 s — not the 2.0 s the claim states. -/
theorem eleventh_rapid_call_sleeps_one :
    (rapidCalls stdRateLimiter 11).2 = [1, 1, 1, 1, 1, 1, 1, 1, 1, 1, 1] ∧
    (1 : ℚ) ≠ 2 := by
  constructor
  · norm_num [rapidCalls, acquire, stdRateLimiter]
  · norm_num

/-- C5 amended (spec-modelled): once `burst_count ≥ burst_limit` the delay is
`min(base_delay · 2^min(burst_count − burst_limit, 2), 8.0)`; under rapid
calls with the default configuration the 11th call therefore sleeps 1.0 s,
the 12th sleeps 2.0 s, and the 13th (exponent capped at 2) sleeps 4.0 s. -/
theorem rate_limiter_backoff_schedule :
    (rapidCalls stdRateLimiter 13).2
      = [1, 1, 1, 1, 1, 1, 1, 1, 1, 1, 1, 2, 4] ∧
    ∀ (st : RateLimiterState) (now : ℚ),
      ¬ stdRateLimiter.burstWindow < now - st.lastCallTime →
      stdRateLimiter.burstLimit ≤ st.burstCount →
      (acquire stdRateLimiter st now).1
        = min (stdRateLimiter.baseDelay *
            2 ^ (min (st.burstCount - stdRateLimiter.burstLimit) 2)) 8 := by
  constructor
  · norm_num [rapidCalls, acquire, stdRateLimiter]
  · intro st now h1 h2
    unfold acquire
    dsimp only
    rw [if_neg h1, if_pos h2]

/-- C5 witness: the backoff formula applied at a concrete state with
burst_count = 12 (two past the limit). -/
theorem rate_limiter_backoff_schedule_witness :
    ¬ stdRateLimiter.burstWindow
        < (0 : ℚ) - (⟨0, 12⟩ : RateLimiterState).lastCallTime ∧
    stdRateLimiter.burstLimit ≤ (⟨0, 12⟩ : RateLimiterState).burstCount ∧
    (acquire stdRateLimiter ⟨0, 12⟩ 0).1
      = min (stdRateLimiter.baseDelay *
          2 ^ (min ((⟨0, 12⟩ : RateLimiterState).burstCount -
            stdRateLimiter.burstLimit) 2)) 8 := by
  refine ⟨by norm_num [stdRateLimiter], by norm_num [stdRateLimiter], ?_⟩
  exact rate_limiter_backoff_schedule.2 ⟨0, 12⟩ 0
    (by norm_num [stdRateLimiter]) (by norm_num [stdRateLimiter])

/-- Unfolding equation: a key that fetches an assigned issue queues it. -/
theorem collectSpecific_cons_ok_some (fetch : String → Except String Issue)
    (k : String) (ks : List String) (i : Issue)
    (hfk : fetch k = Except.ok i) (ha : i.assignee.isSome = true) :
    collectSpecific fetch (k :: ks)
      = ⟨i :: (collectSpecific fetch ks).toProcess,
          (collectSpecific fetch ks).skippedNoAssignee,
          (collectSpecific fetch ks).fetchFailed⟩ := by
  conv_lhs => rw [collectSpecific]
  rw [hfk]
  dsimp only
  rw [if_pos ha]

/-- Unfolding equation: a key that fetches an unassigned issue gets a skip
note. -/
theorem collectSpecific_cons_ok_none (fetch : String → Except String Issue)
    (k : String) (ks : List String) (i : Issue)
    (hfk : fetch k = Except.ok i) (ha : ¬ i.assignee.isSome = true) :
    collectSpecific fetch (k :: ks)
      = ⟨(collectSpecific fetch ks).toProcess,
          k :: (collectSpecific fetch ks).skippedNoAssignee,
          (collectSpecific fetch ks).fetchFailed⟩ := by
  conv_lhs => rw [collectSpecific]
  rw [hfk]
  dsimp only
  rw [if_neg ha]

/-- Unfolding equation: a key whose fetch fails is recorded and the loop
continues. -/
theorem collectSpecific_cons_error (fetch : String → Except String Issue)
    (k : String) (ks : List String) (e : String)
    (hfk : fetch k = Except.error e) :
    collectSpecific fetch (k :: ks)
      = ⟨(collectSpecific fetch ks).toProcess,
          (collectSpecific fetch ks).skippedNoAssignee,
          k :: (collectSpecific fetch ks).fetchFailed⟩ := by
  conv_lhs => rw [collectSpecific]
  rw [hfk]

/-- Every issue queued by the explicit-key collection loop has an assignee
(line 623 filters the rest out before the processing loop). -/
theorem collectSpecific_assignees (fetch : String → Except String Issue) :
    ∀ keys, ∀ iss ∈ (collectSpecific fetch keys).toProcess,
      iss.assignee.isSome = true := by
  intro keys
  induction keys with
  | nil => intro iss h; exact absurd h (by simp [collectSpecific])
  | cons k ks ih =>
      intro iss h
      cases hfk : fetch k with
      | ok i =>
          by_cases ha : i.assignee.isSome = true
          · rw [collectSpecific_cons_ok_some fetch k ks i hfk ha] at h
            rcases List.mem_cons.mp h with rfl | h2
            · exact ha
            · exact ih iss h2
          · rw [collectSpecific_cons_ok_none fetch k ks i hfk ha] at h
            exact ih iss h
      | error e =>
          rw [collectSpecific_cons_error fetch k ks e hfk] at h
          exact ih iss h

/-- The number of issues queued by the explicit-key collection loop is the
number of keys that fetch successfully and carry an assignee. -/
theorem collectSpecific_length (fetch : String → Except String Issue) :
    ∀ keys, (collectSpecific fetch keys).toProcess.length
      = keys.countP (fun k => match fetch k with
          | Except.ok iss => iss.assignee.isSome
          | Except.error _ => false) := by
  intro keys
  induction keys with
  | nil => rfl
  | cons k ks ih =>
      cases hfk : fetch k with
      | ok i =>
          by_cases ha : i.assignee.isSome = true
          · rw [collectSpecific_cons_ok_some fetch k ks i hfk ha]
            simp [List.countP_cons, hfk, ha, ih]
          · rw [collectSpecific_cons_ok_none fetch k ks i hfk ha]
            simp [List.countP_cons, hfk, ha, ih]
      | error e =>
          rw [collectSpecific_cons_error fetch k ks e hfk]
          simp [List.countP_cons, hfk, ih]

/-- Per-key outcomes of the explicit-key collection loop: a key fetching an
assigned issue queues that issue, a key fetching an unassigned issue lands in
the skip notes, and a key whose fetch fails lands in the failure notes; none
of this aborts the handling of the other keys. -/
theorem collectSpecific_mem (fetch : String → Except String Issue) :
    ∀ keys, ∀ k ∈ keys,
      (∀ iss, fetch k = Except.ok iss →
        (iss.assignee.isSome = true → iss ∈ (collectSpecific fetch keys).toProcess) ∧
        (iss.assignee = Option.none → k ∈ (collectSpecific fetch keys).skippedNoAssignee)) ∧
      (∀ e, fetch k = Except.error e → k ∈ (collectSpecific fetch keys).fetchFailed) := by
  intro keys
  induction keys with
  | nil => intro k h; exact absurd h (by simp)
  | cons k0 ks ih =>
      intro k hk
      have step : ∀ P : SpecificCollection → Prop,
          (∀ tp sk ff, P ⟨tp, sk, ff⟩ →
            (∀ i, P ⟨i :: tp, sk, ff⟩) ∧ P ⟨tp, k0 :: sk, ff⟩ ∧ P ⟨tp, sk, k0 :: ff⟩) →
          P (collectSpecific fetch ks) → P (collectSpecific fetch (k0 :: ks)) := by
        intro P hmono hP
        cases hf0 : fetch k0 with
        | ok i =>
            by_cases ha0 : i.assignee.isSome = true
            · rw [collectSpecific_cons_ok_some fetch k0 ks i hf0 ha0]
              exact ((hmono _ _ _ hP).1 i)
            · rw [collectSpecific_cons_ok_none fetch k0 ks i hf0 ha0]
              exact (hmono _ _ _ hP).2.1
        | error e =>
            rw [collectSpecific_cons_error fetch k0 ks e hf0]
            exact (hmono _ _ _ hP).2.2
      rcases List.mem_cons.mp hk with rfl | hk2
      · refine ⟨fun iss hfk => ⟨?_, ?_⟩, fun e hfk => ?_⟩
        · intro ha
          rw [collectSpecific_cons_ok_some fetch k ks iss hfk ha]
          exact List.mem_cons_self _ _
        · intro ha
          rw [collectSpecific_cons_ok_none fetch k ks iss hfk (by rw [ha]; decide)]
          exact List.mem_cons_self _ _
        · rw [collectSpecific_cons_error fetch k ks e hfk]
          exact List.mem_cons_self _ _
      · refine ⟨fun iss hfk => ⟨?_, ?_⟩, fun e hfk => ?_⟩
        · intro ha
          refine step (fun col => iss ∈ col.toProcess) ?_ (((ih k hk2).1 iss hfk).1 ha)
          intro tp sk ff hP
          exact ⟨fun i => List.mem_cons_of_mem _ hP, hP, hP⟩
        · intro ha
          refine step (fun col => k ∈ col.skippedNoAssignee) ?_ (((ih k hk2).1 iss hfk).2 ha)
          intro tp sk ff hP
          exact ⟨fun i => hP, List.mem_cons_of_mem _ hP, hP⟩
        · refine step (fun col => k ∈ col.fetchFailed) ?_ ((ih k hk2).2 e hfk)
          intro tp sk ff hP
          exact ⟨fun i => hP, hP, List.mem_cons_of_mem _ hP⟩

/-- When every processed candidate has an assignee, the in-loop skip counter
stays at zero. -/
theorem mkReport_skipped_zero (mode : String) (postOk : String → Bool)
    (template : String) (issues : List Issue) (skips fails : List String)
    (ha : ∀ iss ∈ issues, iss.assignee.isSome = true) :
    (mkReport mode postOk template issues skips fails).skipped = 0 := by
  unfold mkReport
  simp only
  rw [List.countP_eq_zero]
  intro o ho
  rw [List.mem_map] at ho
  obtain ⟨s, hs, rfl⟩ := ho
  rw [List.mem_map] at hs
  obtain ⟨iss, hiss, rfl⟩ := hs
  simpa using processIssue_with_assignee mode postOk template iss (ha iss hiss)

/-- Every processed candidate contributes its line item to the report. -/
theorem mkReport_outcome_mem (mode : String) (postOk : String → Bool)
    (template : String) (issues : List Issue) (skips fails : List String)
    (iss : Issue) (h : iss ∈ issues) :
    (iss.key, (processIssue mode postOk template iss).1)
      ∈ (mkReport mode postOk template issues skips fails).outcomes := by
  unfold mkReport
  simp only
  exact List.mem_map_of_mem _ (List.mem_map_of_mem _ h)

/-- C9 counterexample: explicit targeting over keys `["C", "A"]` where issue
`C` resolves without an assignee: `C` is skipped — excluded from processing
and noted — but the report's skipped counter is 0, not 1: the fetch-time skip
at line 626 never increments `skipped_count`, refuting "counted as skipped".
The remaining valid key `A` is still processed. -/
theorem no_assignee_skip_not_counted :
    commentOnStaleIssues 0 sampleFetch [] Option.none 14 "dry_run"
      "specific_issues" "{assignee} ping" ["C", "A"] (fun _ => true)
      = Except.ok ⟨1, 0, 0, 0, [("A", Outcome.wouldPost)], [], ["C"], []⟩ ∧
    (⟨1, 0, 0, 0, [("A", Outcome.wouldPost)], [], ["C"], []⟩ : Report).skipped = 0 :=
  ⟨by decide, rfl⟩

/-- C9 amended: in explicit-issue targeting, every fetched issue without an
assignee is skipped — excluded from processing with a note recorded — but it
is NOT counted in the skipped counter, which is always 0 in this mode; a
fetch failure for one key is recorded without aborting the batch; and every
key that fetches an assigned issue is still processed (its line item appears
in the report), with `processed` equal to the number of such keys. -/
theorem explicit_targeting_never_aborts (now : Int)
    (fetch : String → Except String Issue) (search : List (Issue × List Comment))
    (projectKey : Option String) (daysThreshold : Int) (mode template : String)
    (keys : List String) (postOk : String → Bool) (r : Report)
    (h : commentOnStaleIssues now fetch search projectKey daysThreshold mode
      "specific_issues" template keys postOk = Except.ok r) :
    r.skipped = 0 ∧
    r.processed = keys.countP (fun k => match fetch k with
        | Except.ok iss => iss.assignee.isSome
        | Except.error _ => false) ∧
    (∀ k ∈ keys, ∀ iss, fetch k = Except.ok iss → iss.assignee = Option.none →
      k ∈ r.skippedNoAssigneeKeys) ∧
    (∀ k ∈ keys, ∀ e, fetch k = Except.error e → k ∈ r.fetchFailedKeys) ∧
    (∀ k ∈ keys, ∀ iss, fetch k = Except.ok iss → iss.assignee.isSome = true →
      (iss.key, (processIssue mode postOk template iss).1) ∈ r.outcomes) := by
  unfold commentOnStaleIssues at h
  rw [if_pos rfl] at h
  split at h
  · exact absurd h (by simp)
  · dsimp only at h
    split at h
    · exact absurd h (by simp)
    · obtain rfl := (Except.ok.inj h).symm
      refine ⟨?_, ?_, ?_, ?_, ?_⟩
      · exact mkReport_skipped_zero mode postOk template _ _ _
          (collectSpecific_assignees fetch keys)
      · rw [(mkReport_fields mode postOk template _ _ _).1]
        exact collectSpecific_length fetch keys
      · intro k hk iss hfk ha
        rw [(mkReport_fields mode postOk template _ _ _).2.2.1]
        exact ((collectSpecific_mem fetch keys k hk).1 iss hfk).2 ha
      · intro k hk e hfk
        rw [(mkReport_fields mode postOk template _ _ _).2.2.2]
        exact (collectSpecific_mem fetch keys k hk).2 e hfk
      · intro k hk iss hfk ha
        exact mkReport_outcome_mem mode postOk template _ _ _ iss
          (((collectSpecific_mem fetch keys k hk).1 iss hfk).1 ha)

/-- C9 witness: one valid key and one nonexistent key: the report processes
exactly the valid one and records the failed fetch, with skipped = 0. -/
theorem explicit_targeting_never_aborts_witness :
    commentOnStaleIssues 0 sampleFetch [] Option.none 14 "dry_run"
      "specific_issues" "{assignee} ping" ["A", "Z9"] (fun _ => true)
      = Except.ok ⟨1, 0, 0, 0, [("A", Outcome.wouldPost)], [], [], ["Z9"]⟩ ∧
    (⟨1, 0, 0, 0, [("A", Outcome.wouldPost)], [], [], ["Z9"]⟩ : Report).processed
      = ["A", "Z9"].countP (fun k => match sampleFetch k with
          | Except.ok iss => iss.assignee.isSome
          | Except.error _ => false) ∧
    "Z9" ∈ (⟨1, 0, 0, 0, [("A", Outcome.wouldPost)], [], [],
      ["Z9"]⟩ : Report).fetchFailedKeys ∧
    ("A", Outcome.wouldPost) ∈ (⟨1, 0, 0, 0, [("A", Outcome.wouldPost)], [], [],
      ["Z9"]⟩ : Report).outcomes := by
  have h := explicit_targeting_never_aborts 0 sampleFetch [] Option.none 14
    "dry_run" "{assignee} ping" ["A", "Z9"] (fun _ => true)
    ⟨1, 0, 0, 0, [("A", Outcome.wouldPost)], [], [], ["Z9"]⟩ (by decide)
  refine ⟨by decide, h.2.1, ?_, ?_⟩
  · exact h.2.2.2.1 "Z9" (by decide) "does not exist" (by decide)
  · have hout := h.2.2.2.2 "A" (by decide) issA (by decide) (by decide)
    simp only [issA] at hout
    exact hout

end McpJira
